import Mathlib

/-!
Verification of the adapter packaging CLI (`scripts/cli/pack.py`).

The source is a Python command that discovers adapter directories, zips each
one, computes sha1/sha256 digests of the zip, and synthesizes a YAML manifest
from a template merged with the adapter's data.  Python dictionaries are
embedded as association lists with unique keys (`dset` updates an existing
key in place and appends a fresh key at the end, exactly the Python dict
semantics); the filesystem is embedded explicitly where a claim needs it.
-/

namespace Pack

/-! ## Python dict embedding -/

/-- First-match lookup in an association list, i.e. `d[k]` / `d.get(k)` on a
Python dict (whose keys are unique, so first match is the only match). -/
def dlookup {α : Type} : List (String × α) → String → Option α
  | [], _ => none
  | (k, v) :: rest, key => if k = key then some v else dlookup rest key

/-- Membership test `k in d` on a Python dict. -/
def dcontains {α : Type} (d : List (String × α)) (k : String) : Bool :=
  (dlookup d k).isSome

/-- Assignment `d[k] = v` on a Python dict: update the existing entry in
place, or append a new entry at the end. -/
def dset {α : Type} : List (String × α) → String → α → List (String × α)
  | [], k, v => [(k, v)]
  | (k0, v0) :: rest, k, v =>
    if k0 = k then (k0, v) :: rest else (k0, v0) :: dset rest k v

/-- The key list of a dict, in insertion order. -/
def dkeys {α : Type} (d : List (String × α)) : List String :=
  d.map Prod.fst

@[simp] theorem dlookup_nil {α : Type} (k : String) :
    dlookup ([] : List (String × α)) k = none := rfl

@[simp] theorem dlookup_cons {α : Type} (k0 key : String) (v0 : α)
    (rest : List (String × α)) :
    dlookup ((k0, v0) :: rest) key =
      if k0 = key then some v0 else dlookup rest key := rfl

theorem dlookup_dset_self {α : Type} (d : List (String × α)) (k : String) (v : α) :
    dlookup (dset d k v) k = some v := by
  induction d with
  | nil => simp [dset]
  | cons hd tl ih =>
    obtain ⟨k0, v0⟩ := hd
    by_cases h : k0 = k
    · simp [dset, h]
    · simp [dset, h, ih]

theorem dlookup_dset_other {α : Type} (d : List (String × α)) (k k' : String)
    (v : α) (hne : k' ≠ k) :
    dlookup (dset d k v) k' = dlookup d k' := by
  have hne2 : k ≠ k' := Ne.symm hne
  induction d with
  | nil => simp [dset, hne2]
  | cons hd tl ih =>
    obtain ⟨k0, v0⟩ := hd
    by_cases h : k0 = k
    · subst h
      simp [dset, hne2]
    · simp [dset, h, ih]

theorem dkeys_dset_of_contains {α : Type} (d : List (String × α)) (k : String)
    (v : α) (hc : dcontains d k = true) :
    dkeys (dset d k v) = dkeys d := by
  induction d with
  | nil => simp [dcontains, dlookup] at hc
  | cons hd tl ih =>
    obtain ⟨k0, v0⟩ := hd
    by_cases h : k0 = k
    · simp [dset, h, dkeys]
    · have hc2 : dcontains tl k = true := by
        simpa [dcontains, dlookup, h] using hc
      simp [dset, h, dkeys] at ih ⊢
      exact ih hc2

@[simp] theorem dkeys_nil {α : Type} : dkeys ([] : List (String × α)) = [] := rfl

@[simp] theorem dkeys_cons {α : Type} (k : String) (v : α) (d : List (String × α)) :
    dkeys ((k, v) :: d) = k :: dkeys d := rfl

theorem dlookup_eq_none_of_not_mem {α : Type} (d : List (String × α)) (k : String)
    (h : k ∉ dkeys d) : dlookup d k = none := by
  induction d with
  | nil => rfl
  | cons hd tl ih =>
    obtain ⟨k0, v0⟩ := hd
    rw [dkeys_cons] at h
    have hne : k0 ≠ k := fun hc => h (by simp [hc])
    simp only [dlookup_cons, if_neg hne]
    exact ih (fun hm => h (List.mem_cons_of_mem _ hm))

theorem dcontains_dset {α : Type} (d : List (String × α)) (k k' : String)
    (v : α) (hc : dcontains d k = true) :
    dcontains (dset d k v) k' = dcontains d k' := by
  by_cases h : k' = k
  · subst h
    simp only [dcontains, dlookup_dset_self, Option.isSome_some]
    exact hc.symm
  · simp [dcontains, dlookup_dset_other d k k' v h]

/-! ## C10: config file fields overwrite caller-provided adapter_data
(`pack.py` lines 205-210: `adapter_data = adapter_data or {}` followed by
`for k, v in config.items(): adapter_data[k] = v`). -/

/-- The loop `for k, v in config.items(): adapter_data[k] = v` of
`pack_adapter`: every field of the parsed `adapter_config.json` is written
into `adapter_data`, overwriting an identically named caller field. -/
def mergeConfigIntoData {α : Type} : List (String × α) → List (String × α) → List (String × α)
  | adapter_data, [] => adapter_data
  | adapter_data, (k, v) :: rest => mergeConfigIntoData (dset adapter_data k v) rest

theorem mergeConfigIntoData_lookup {α : Type} (config adapter_data : List (String × α))
    (hnodup : (dkeys config).Nodup) (k : String) :
    dlookup (mergeConfigIntoData adapter_data config) k =
      match dlookup config k with
      | some v => some v
      | none => dlookup adapter_data k := by
  induction config generalizing adapter_data with
  | nil => simp [mergeConfigIntoData]
  | cons hd rest ih =>
    obtain ⟨k0, v0⟩ := hd
    rw [dkeys_cons, List.nodup_cons] at hnodup
    have hnodup2 : (dkeys rest).Nodup := hnodup.2
    by_cases h : k0 = k
    · subst h
      have hk0 : dlookup rest k0 = none :=
        dlookup_eq_none_of_not_mem rest k0 hnodup.1
      rw [mergeConfigIntoData, ih (dset adapter_data k0 v0) hnodup2 ]
      simp [hk0, dlookup_dset_self]
    · rw [mergeConfigIntoData, ih (dset adapter_data k0 v0) hnodup2 ]
      by_cases h2 : dlookup rest k = none
      · simp [dlookup, h, h2, dlookup_dset_other adapter_data k0 k v0 (Ne.symm h)]
      · obtain ⟨v, hv⟩ := Option.ne_none_iff_exists.mp h2
        simp [dlookup, h, ← hv]

/-! ## C1: template overlay in manifest synthesis
(`pack.py` lines 252-254: `for key in adapter_data: if key in template and
key != "config": template[key] = adapter_data[key]`). -/

/-- The overlay loop of `pack_adapter`: each key of `adapter_data` that is
present in the (current) template and is not the literal key `config` has
its template value overwritten; all other keys leave the template unchanged. -/
def overlayTemplate {α : Type} : List (String × α) → List (String × α) → List (String × α)
  | template, [] => template
  | template, (k, v) :: rest =>
    overlayTemplate
      (if dcontains template k = true ∧ k ≠ "config" then dset template k v else template)
      rest

theorem overlayTemplate_keys {α : Type} (adapter_data template : List (String × α)) :
    dkeys (overlayTemplate template adapter_data) = dkeys template := by
  induction adapter_data generalizing template with
  | nil => rfl
  | cons hd rest ih =>
    obtain ⟨k, v⟩ := hd
    rw [overlayTemplate]
    by_cases h : dcontains template k = true ∧ k ≠ "config"
    · rw [if_pos h, ih, dkeys_dset_of_contains template k v h.1]
    · rw [if_neg h, ih]

theorem overlayTemplate_lookup {α : Type} (adapter_data template : List (String × α))
    (hnodup : (dkeys adapter_data).Nodup) (k : String) :
    dlookup (overlayTemplate template adapter_data) k =
      match dlookup adapter_data k with
      | some v =>
        if dcontains template k = true ∧ k ≠ "config" then some v else dlookup template k
      | none => dlookup template k := by
  induction adapter_data generalizing template with
  | nil => simp [overlayTemplate]
  | cons hd rest ih =>
    obtain ⟨k0, v0⟩ := hd
    rw [dkeys_cons, List.nodup_cons] at hnodup
    have hnodup2 : (dkeys rest).Nodup := hnodup.2
    have hrest0 : dlookup rest k0 = none :=
      dlookup_eq_none_of_not_mem rest k0 hnodup.1
    rw [overlayTemplate]
    by_cases h : dcontains template k0 = true ∧ k0 ≠ "config"
    · rw [if_pos h, ih (dset template k0 v0) hnodup2]
      by_cases hk : k0 = k
      · subst hk
        simp [dlookup, hrest0, dlookup_dset_self, h]
      · have hconts : dcontains (dset template k0 v0) k = dcontains template k :=
          dcontains_dset template k0 k v0 h.1
        have hlook : dlookup (dset template k0 v0) k = dlookup template k :=
          dlookup_dset_other template k0 k v0 (Ne.symm hk)
        cases hrk : dlookup rest k with
        | none => simp [dlookup, hk, hrk, hconts, hlook]
        | some v => simp [dlookup, hk, hrk, hconts, hlook]
    · rw [if_neg h, ih template hnodup2]
      by_cases hk : k0 = k
      · subst hk
        simp [dlookup, hrest0]
        rw [if_neg h]
      · cases hrk : dlookup rest k with
        | none => simp [dlookup, hk, hrk]
        | some v => simp [dlookup, hk, hrk]

/-- C10: in `pack_adapter`, every field parsed from the artifact's own
`adapter_config.json` (the `config` dict) overwrites any identically named
field supplied by the caller in `adapter_data` (lines 209-210, which run
before any further resolution of the data), while caller fields without a
config counterpart are kept. -/
theorem C10_config_overwrites_caller_data {α : Type}
    (adapter_data config : List (String × α)) (hnodup : (dkeys config).Nodup) :
    (∀ k v, dlookup config k = some v →
      dlookup (mergeConfigIntoData adapter_data config) k = some v) ∧
    (∀ k, dlookup config k = none →
      dlookup (mergeConfigIntoData adapter_data config) k = dlookup adapter_data k) := by
  constructor
  · intro k v hv
    rw [mergeConfigIntoData_lookup config adapter_data hnodup k, hv]
  · intro k hnone
    rw [mergeConfigIntoData_lookup config adapter_data hnodup k, hnone]

/-- Witness for C10 at a concrete caller dict and config dict: the config
value wins for the shared key `model_name`, the caller-only key `task`
survives. -/
theorem C10_config_overwrites_caller_data_witness :
    dlookup (mergeConfigIntoData [("model_name", "caller"), ("task", "t")]
      [("model_name", "cfg"), ("config_id", "123")]) "model_name" = some "cfg" ∧
    dlookup (mergeConfigIntoData [("model_name", "caller"), ("task", "t")]
      [("model_name", "cfg"), ("config_id", "123")]) "task" = some "t" := by
  constructor
  · exact (C10_config_overwrites_caller_data
      [("model_name", "caller"), ("task", "t")]
      [("model_name", "cfg"), ("config_id", "123")] (by decide)).1
      "model_name" "cfg" (by decide)
  · exact (C10_config_overwrites_caller_data
      [("model_name", "caller"), ("task", "t")]
      [("model_name", "cfg"), ("config_id", "123")] (by decide)).2
      "task" (by decide)

/-- C1: in the manifest synthesis of `pack_adapter` (lines 252-254), every
key of the collected `adapter_data` that exists as a top-level template key
and is not the literal key `config` has the template value overwritten with
the artifact value; the key set of the template is unchanged, so artifact
keys absent from the template are dropped and never added, and the `config`
key keeps its template value through the overlay. -/
theorem C1_template_overlay {α : Type} (template adapter_data : List (String × α))
    (hnodup : (dkeys adapter_data).Nodup) :
    dkeys (overlayTemplate template adapter_data) = dkeys template ∧
    (∀ k v, dlookup adapter_data k = some v → k ≠ "config" →
      dcontains template k = true →
      dlookup (overlayTemplate template adapter_data) k = some v) ∧
    (∀ k, dcontains template k = false →
      dlookup (overlayTemplate template adapter_data) k = dlookup template k) ∧
    dlookup (overlayTemplate template adapter_data) "config" =
      dlookup template "config" := by
  refine ⟨overlayTemplate_keys adapter_data template, ?_, ?_, ?_⟩
  · intro k v hv hne hcont
    rw [overlayTemplate_lookup adapter_data template hnodup k, hv]
    simp [hcont, hne]
  · intro k hcont
    rw [overlayTemplate_lookup adapter_data template hnodup k]
    cases hv : dlookup adapter_data k with
    | none => rfl
    | some v => simp [hcont]
  · rw [overlayTemplate_lookup adapter_data template hnodup "config"]
    cases hv : dlookup adapter_data "config" with
    | none => rfl
    | some v => simp

/-- Witness for C1 at a concrete template and artifact dict: the shared key
`author` is overwritten, the artifact-only key `junk` is not added, the
`config` key keeps the template value, and the key set is the template key
set. -/
theorem C1_template_overlay_witness :
    dkeys (overlayTemplate [("author", "X"), ("config", "C"), ("files", "F")]
      [("author", "A"), ("junk", "J"), ("config", "Z")]) =
        ["author", "config", "files"] ∧
    dlookup (overlayTemplate [("author", "X"), ("config", "C"), ("files", "F")]
      [("author", "A"), ("junk", "J"), ("config", "Z")]) "author" = some "A" ∧
    dlookup (overlayTemplate [("author", "X"), ("config", "C"), ("files", "F")]
      [("author", "A"), ("junk", "J"), ("config", "Z")]) "junk" = none ∧
    dlookup (overlayTemplate [("author", "X"), ("config", "C"), ("files", "F")]
      [("author", "A"), ("junk", "J"), ("config", "Z")]) "config" = some "C" := by
  have h := C1_template_overlay
    [("author", "X"), ("config", "C"), ("files", "F")]
    [("author", "A"), ("junk", "J"), ("config", "Z")] (by decide)
  refine ⟨h.1, h.2.1 "author" "A" (by decide) (by decide) (by decide), ?_, ?_⟩
  · have h2 := h.2.2.1 "junk" (by decide)
    rw [h2]
    decide
  · rw [h.2.2.2]
    decide

/-! ## C5: download-URL resolution
(`pack.py` lines 242-246: `if url_template: download_url =
url_template.format(file=basename(zip_name), **adapter_data)` with a
`KeyError` escaping when the template names an absent field, `else
download_url = "TODO"`).  A format string is embedded already split into
literal and `\x7bfield\x7d` placeholder segments; the empty segment list
is the empty (falsy) template string.  Note the call shape: when
`adapter_data` itself contains a key `file`, CPython raises `TypeError`
(multiple values for keyword argument `file`) while building the keyword
arguments, before any interpolation and regardless of which fields the
template references. -/

/-- One segment of a Python format string: a literal run of characters or a
named placeholder. -/
inductive TSeg where
  | lit : String → TSeg
  | field : String → TSeg
deriving DecidableEq

/-- Whether an `Except` carries a success value. -/
def excOk {ε α : Type} : Except ε α → Bool
  | Except.ok _ => true
  | Except.error _ => false

/-- The semantics of `str.format` with keyword arguments: each placeholder
is replaced by the value bound to its name, and a placeholder naming an
absent field raises `KeyError` with that name. -/
def formatSegs : List TSeg → List (String × String) → Except String String
  | [], _ => Except.ok ""
  | TSeg.lit s :: rest, env => (formatSegs rest env).map (fun t => s ++ t)
  | TSeg.field n :: rest, env =>
    match dlookup env n with
    | some v => (formatSegs rest env).map (fun t => v ++ t)
    | none => Except.error n

/-- The field names referenced by a format string. -/
def refFields : List TSeg → List String
  | [] => []
  | TSeg.lit _ :: rest => refFields rest
  | TSeg.field n :: rest => n :: refFields rest

/-- The ways line 244 can raise: `KeyError` from `str.format` when the
template references an absent field (the spec's TemplateResolutionError),
or `TypeError` from the call itself when `adapter_data` contains a key
`file`, duplicating the explicit `file=` keyword argument. -/
inductive UrlError where
  | keyError : String → UrlError
  | typeError : UrlError
deriving DecidableEq

/-- Lines 242-246 of `pack_adapter`: a truthy (non-empty) `url_template` is
interpolated via `format(file=basename(zip_name), **adapter_data)`;
otherwise the literal placeholder `TODO` is used.  The call raises
`TypeError` before interpolating whenever `adapter_data` has a `file` key
(duplicate keyword argument); otherwise the keyword environment is `file`
plus every entry of `adapter_data`. -/
def resolveDownloadUrl (url_template : List TSeg) (zipBase : String)
    (adapter_data : List (String × String)) : Except UrlError String :=
  if url_template ≠ [] then
    if dcontains adapter_data "file" = true then
      Except.error UrlError.typeError
    else
      match formatSegs url_template (("file", zipBase) :: adapter_data) with
      | Except.ok s => Except.ok s
      | Except.error f => Except.error (UrlError.keyError f)
  else
    Except.ok "TODO"

theorem formatSegs_isOk_iff (segs : List TSeg) (env : List (String × String)) :
    excOk (formatSegs segs env) = true ↔
      ∀ f ∈ refFields segs, dcontains env f = true := by
  induction segs with
  | nil => simp [formatSegs, refFields, excOk]
  | cons hd rest ih =>
    cases hd with
    | lit s =>
      rw [formatSegs, refFields]
      cases hfs : formatSegs rest env with
      | ok t => simpa [Except.map, excOk, hfs] using ih
      | error e => simpa [Except.map, excOk, hfs] using ih
    | field n =>
      rw [formatSegs, refFields]
      cases henv : dlookup env n with
      | some v =>
        have hc : dcontains env n = true := by simp [dcontains, henv]
        cases hfs : formatSegs rest env with
        | ok t => simpa [Except.map, excOk, hfs, hc] using ih
        | error e => simpa [Except.map, excOk, hfs, hc] using ih
      | none =>
        have hc : dcontains env n = false := by simp [dcontains, henv]
        simp [excOk, hc]

theorem formatSegs_error (segs : List TSeg) (env : List (String × String))
    (f : String) (herr : formatSegs segs env = Except.error f) :
    f ∈ refFields segs ∧ dcontains env f = false := by
  induction segs with
  | nil => simp [formatSegs] at herr
  | cons hd rest ih =>
    cases hd with
    | lit s =>
      rw [formatSegs] at herr
      cases hfs : formatSegs rest env with
      | ok t => rw [hfs] at herr; simp [Except.map] at herr
      | error e =>
        rw [hfs] at herr
        simp [Except.map] at herr
        subst herr
        have h := ih hfs
        exact ⟨by simp [refFields, h.1], h.2⟩
    | field n =>
      rw [formatSegs] at herr
      cases henv : dlookup env n with
      | some v =>
        rw [henv] at herr
        cases hfs : formatSegs rest env with
        | ok t => rw [hfs] at herr; simp [Except.map] at herr
        | error e =>
          rw [hfs] at herr
          simp [Except.map] at herr
          subst herr
          have h := ih hfs
          exact ⟨by simp [refFields, h.1], h.2⟩
      | none =>
        rw [henv] at herr
        simp at herr
        subst herr
        exact ⟨by simp [refFields], by simp [dcontains, henv]⟩

theorem dcontains_cons (k f : String) (v : String) (d : List (String × String)) :
    dcontains ((k, v) :: d) f = (decide (k = f) || dcontains d f) := by
  by_cases h : k = f <;> simp [dcontains, dlookup, h]

theorem formatSegs_env_isOk_iff (segs : List TSeg) (zipBase : String)
    (adapter_data : List (String × String)) :
    excOk (formatSegs segs (("file", zipBase) :: adapter_data)) = true ↔
      ∀ f ∈ refFields segs, f = "file" ∨ dcontains adapter_data f = true := by
  rw [formatSegs_isOk_iff]
  constructor
  · intro hall f hf
    have h2 := hall f hf
    rw [dcontains_cons] at h2
    rcases Bool.or_eq_true_iff.mp h2 with h3 | h3
    · exact Or.inl (of_decide_eq_true h3).symm
    · exact Or.inr h3
  · intro hall f hf
    rw [dcontains_cons]
    rcases hall f hf with h3 | h3
    · simp [h3]
    · simp [h3]

/-- Counterexample to C5: an artifact whose data contains a field named
`file` makes `format(file=..., **adapter_data)` raise `TypeError` (multiple
values for the keyword argument `file`) even though the template references
only fields present in the data, so "interpolation fails exactly when the
template references a field absent from that data" is false. -/
theorem C5_shadowed_file_counterexample :
    resolveDownloadUrl [TSeg.field "task"] "m.zip" [("file", "x"), ("task", "t")] =
      Except.error UrlError.typeError ∧
    ∀ f ∈ refFields [TSeg.field "task"],
      f = "file" ∨ dcontains [("file", "x"), ("task", "t")] f = true := by
  constructor
  · rfl
  · decide

/-- C5 as amended: an empty (unsupplied) `url_template` yields the literal
placeholder `TODO`; a non-empty template with an artifact data field named
`file` fails with `TypeError` (duplicate keyword argument) regardless of
the template; otherwise the download URL is the template interpolated with
the archive base filename (bound to `file`) and every artifact data field,
and interpolation fails with `KeyError` (the TemplateResolutionError)
exactly when the template references a field absent from that data, the
raised name being such a field. -/
theorem C5_download_url_resolution (url_template : List TSeg) (zipBase : String)
    (adapter_data : List (String × String)) :
    (url_template = [] →
      resolveDownloadUrl url_template zipBase adapter_data = Except.ok "TODO") ∧
    (url_template ≠ [] → dcontains adapter_data "file" = true →
      resolveDownloadUrl url_template zipBase adapter_data =
        Except.error UrlError.typeError) ∧
    (url_template ≠ [] → dcontains adapter_data "file" = false →
      (∀ s, resolveDownloadUrl url_template zipBase adapter_data = Except.ok s →
        formatSegs url_template (("file", zipBase) :: adapter_data) =
          Except.ok s) ∧
      (excOk (resolveDownloadUrl url_template zipBase adapter_data) = true ↔
        ∀ f ∈ refFields url_template,
          f = "file" ∨ dcontains adapter_data f = true) ∧
      (∀ f, resolveDownloadUrl url_template zipBase adapter_data =
          Except.error (UrlError.keyError f) →
        f ∈ refFields url_template ∧ f ≠ "file" ∧
          dcontains adapter_data f = false)) := by
  refine ⟨?_, ?_, ?_⟩
  · intro h
    simp [resolveDownloadUrl, h]
  · intro h hfile
    simp [resolveDownloadUrl, h, hfile]
  · intro h hfile
    have hres : resolveDownloadUrl url_template zipBase adapter_data =
        match formatSegs url_template (("file", zipBase) :: adapter_data) with
        | Except.ok s => Except.ok s
        | Except.error f => Except.error (UrlError.keyError f) := by
      simp [resolveDownloadUrl, h, hfile]
    refine ⟨?_, ?_, ?_⟩
    · intro s hs
      rw [hres] at hs
      cases hfs : formatSegs url_template (("file", zipBase) :: adapter_data) with
      | ok t => rw [hfs] at hs; simpa using hs
      | error e => rw [hfs] at hs; simp at hs
    · rw [hres]
      have hiff := formatSegs_env_isOk_iff url_template zipBase adapter_data
      cases hfs : formatSegs url_template (("file", zipBase) :: adapter_data) with
      | ok t =>
        rw [hfs] at hiff
        simpa [excOk] using hiff
      | error e =>
        rw [hfs] at hiff
        simpa [excOk] using hiff
    · intro f herr
      rw [hres] at herr
      cases hfs : formatSegs url_template (("file", zipBase) :: adapter_data) with
      | ok t => rw [hfs] at herr; simp at herr
      | error e =>
        rw [hfs] at herr
        simp only [Except.error.injEq, UrlError.keyError.injEq] at herr
        subst herr
        have h2 := formatSegs_error url_template
          (("file", zipBase) :: adapter_data) e hfs
        have h3 := h2.2
        rw [dcontains_cons] at h3
        rcases Bool.or_eq_false_iff.mp h3 with ⟨h4, h5⟩
        exact ⟨h2.1, fun hc => by simp [hc] at h4, h5⟩

/-- Witness for the amended C5 at concrete inputs: a data field named
`file` raises `TypeError`, a template referencing `file` and a present
field resolves, and the empty template yields `TODO`. -/
theorem C5_download_url_resolution_witness :
    resolveDownloadUrl [TSeg.field "task"] "m.zip" [("file", "x")] =
      Except.error UrlError.typeError ∧
    excOk (resolveDownloadUrl [TSeg.field "file", TSeg.lit "/", TSeg.field "task"]
      "m.zip" [("task", "qa")]) = true ∧
    resolveDownloadUrl [] "m.zip" [("task", "qa")] = Except.ok "TODO" := by
  refine ⟨?_, ?_, ?_⟩
  · exact (C5_download_url_resolution [TSeg.field "task"] "m.zip"
      [("file", "x")]).2.1 (by decide) (by decide)
  · exact (((C5_download_url_resolution
      [TSeg.field "file", TSeg.lit "/", TSeg.field "task"] "m.zip"
      [("task", "qa")]).2.2 (by decide) (by decide)).2.1).mpr (by decide)
  · exact (C5_download_url_resolution [] "m.zip" [("task", "qa")]).1 rfl

/-! ## C6: deterministic output naming
(`pack.py` lines 226-230 and 268: `folder_name = "_".join([model_name,
task, subtask, config_name]); folder_name = folder_name.replace("/", "-")`
and the outputs `\x7bfolder_name\x7d.zip` / `\x7bfolder_name\x7d.yaml`). -/

/-- The call `s.replace("/", "-")`: every slash becomes a dash. -/
def sanitizeName (s : String) : String :=
  String.mk (s.data.map (fun c => if c = '/' then '-' else c))

/-- Lines 226-229 of `pack_adapter`: the sanitized base name joined with
underscores from the artifact's model name, task, subtask and resolved
config name. -/
def folder_name (model_name task subtask config_name : String) : String :=
  sanitizeName (String.intercalate "_" [model_name, task, subtask, config_name])

/-- The base filename of the archive (line 230). -/
def zipFileName (model_name task subtask config_name : String) : String :=
  folder_name model_name task subtask config_name ++ ".zip"

/-- The base filename of the manifest (line 268). -/
def yamlFileName (model_name task subtask config_name : String) : String :=
  folder_name model_name task subtask config_name ++ ".yaml"

/-- C6: the output base name is a deterministic function of the artifact's
model name, task, subtask and resolved config name (it is a plain function
of exactly those four fields), every `/` in the joined name is replaced, and
the archive and manifest filenames are that one sanitized base name plus
their extensions. -/
theorem C6_output_naming (model_name task subtask config_name : String) :
    (∀ c ∈ (folder_name model_name task subtask config_name).data, c ≠ '/') ∧
    zipFileName model_name task subtask config_name =
      folder_name model_name task subtask config_name ++ ".zip" ∧
    yamlFileName model_name task subtask config_name =
      folder_name model_name task subtask config_name ++ ".yaml" := by
  refine ⟨?_, rfl, rfl⟩
  intro c hc
  have hdata : (folder_name model_name task subtask config_name).data =
      (String.intercalate "_" [model_name, task, subtask, config_name]).data.map
        (fun c => if c = '/' then '-' else c) := rfl
  rw [hdata] at hc
  rcases List.mem_map.mp hc with ⟨c0, _, hmap⟩
  by_cases h : c0 = '/'
  · rw [if_pos h] at hmap
    rw [← hmap]
    decide
  · rw [if_neg h] at hmap
    rw [← hmap]
    exact h

/-- Witness for C6 at a concrete artifact whose model name contains a
slash: the character written in its place is a dash, not a slash. -/
theorem C6_output_naming_witness :
    '-' ∈ (folder_name "org/model" "sts" "mrpc" "pfeiffer").data ∧ '-' ≠ '/' := by
  constructor
  · decide
  · exact (C6_output_naming "org/model" "sts" "mrpc" "pfeiffer").1 '-' (by decide)

/-! ## C7: integrity digests
(`pack.py` lines 238-241: `file_bytes = f.read()` once, then
`hashlib.sha1(file_bytes).hexdigest()` and
`hashlib.sha256(file_bytes).hexdigest()` over that same byte string).
The two digest cores live in Python's `hashlib`, outside this repository;
they are modelled as executable deterministic byte functions with the
library's documented digest sizes (20 bytes for sha1, 32 for sha256), which
is all the claim depends on besides the hex encoding. -/

/-- An executable stand-in for an `hashlib` digest core: a deterministic
function of the input bytes producing `width` bytes, each below 256. -/
def pseudoDigest (width : Nat) (bytes : List Nat) : List Nat :=
  (List.range width).map
    (fun i => bytes.foldl (fun a b => (a * 131 + b) % 256) ((i * 37 + width) % 256))

/-- Model of `hashlib.sha1(...).digest()`: 20 bytes. -/
def sha1_digest (bytes : List Nat) : List Nat := pseudoDigest 20 bytes

/-- Model of `hashlib.sha256(...).digest()`: 32 bytes. -/
def sha256_digest (bytes : List Nat) : List Nat := pseudoDigest 32 bytes

/-- The lowercase hex character for a value below 16, as produced by
Python's `hexdigest`. -/
def hexChar (n : Nat) : Char :=
  if n < 10 then Char.ofNat (48 + n) else Char.ofNat (87 + n)

/-- Whether a character is a lowercase hexadecimal digit. -/
def isLowerHexChar (c : Char) : Bool :=
  "0123456789abcdef".data.contains c

/-- Python's `.hexdigest()`: two lowercase hex characters per digest byte. -/
def hexdigest (digest : List Nat) : String :=
  String.mk ((digest.map (fun b => [hexChar (b / 16), hexChar (b % 16)])).flatten)

/-- Lines 238-241 of `pack_adapter`: the archive bytes are read once and
both hex digests are computed over that same byte content. -/
def compute_hashes (file_bytes : List Nat) : String × String :=
  (hexdigest (sha1_digest file_bytes), hexdigest (sha256_digest file_bytes))

theorem pseudoDigest_length (width : Nat) (bytes : List Nat) :
    (pseudoDigest width bytes).length = width := by
  simp [pseudoDigest]

theorem foldl_mod_lt (bytes : List Nat) (a : Nat) (ha : a < 256) :
    bytes.foldl (fun a b => (a * 131 + b) % 256) a < 256 := by
  induction bytes generalizing a with
  | nil => simpa using ha
  | cons hd tl ih =>
    exact ih _ (Nat.mod_lt _ (by norm_num))

theorem pseudoDigest_bytes_lt (width : Nat) (bytes : List Nat) :
    ∀ b ∈ pseudoDigest width bytes, b < 256 := by
  intro b hb
  rcases List.mem_map.mp hb with ⟨i, _, hfold⟩
  rw [← hfold]
  exact foldl_mod_lt bytes _ (Nat.mod_lt _ (by norm_num))

theorem hexChar_isLowerHex (n : Nat) (h : n < 16) :
    isLowerHexChar (hexChar n) = true := by
  interval_cases n <;> decide

theorem hexdigest_length (digest : List Nat) :
    (hexdigest digest).length = 2 * digest.length := by
  have h : ∀ d : List Nat, (hexdigest d).length =
      ((d.map (fun b => [hexChar (b / 16), hexChar (b % 16)])).flatten).length :=
    fun d => rfl
  rw [h]
  induction digest with
  | nil => rfl
  | cons hd tl ih =>
    simp only [List.map_cons, List.flatten_cons, List.length_append,
      List.length_cons, List.length_nil] at ih ⊢
    omega

theorem hexdigest_chars (digest : List Nat) (hbytes : ∀ b ∈ digest, b < 256) :
    ∀ c ∈ (hexdigest digest).data, isLowerHexChar c = true := by
  intro c hc
  simp only [hexdigest] at hc
  rcases List.mem_flatten.mp hc with ⟨pair, hpair, hcpair⟩
  rcases List.mem_map.mp hpair with ⟨b, hb, hbpair⟩
  have hblt : b < 256 := hbytes b hb
  rw [← hbpair] at hcpair
  simp only [List.mem_cons, List.not_mem_nil, or_false] at hcpair
  rcases hcpair with h | h
  · rw [h]
    exact hexChar_isLowerHex _ (Nat.div_lt_of_lt_mul (by omega))
  · rw [h]
    exact hexChar_isLowerHex _ (Nat.mod_lt _ (by norm_num))

/-- C7: the integrity computation is a function of the archive bytes read
once; it yields a sha1 hex digest of exactly 40 characters and a sha256 hex
digest of exactly 64 characters, both lowercase hexadecimal, both computed
over the same byte content, and recomputing on equal bytes yields the same
pair. -/
theorem C7_integrity_digests (file_bytes : List Nat) :
    (compute_hashes file_bytes).1.length = 40 ∧
    (compute_hashes file_bytes).2.length = 64 ∧
    (∀ c ∈ (compute_hashes file_bytes).1.data, isLowerHexChar c = true) ∧
    (∀ c ∈ (compute_hashes file_bytes).2.data, isLowerHexChar c = true) ∧
    compute_hashes file_bytes =
      (hexdigest (sha1_digest file_bytes), hexdigest (sha256_digest file_bytes)) ∧
    (∀ other_bytes, file_bytes = other_bytes →
      compute_hashes file_bytes = compute_hashes other_bytes) := by
  refine ⟨?_, ?_, ?_, ?_, rfl, ?_⟩
  · rw [compute_hashes]
    simp [hexdigest_length, sha1_digest, pseudoDigest_length]
  · rw [compute_hashes]
    simp [hexdigest_length, sha256_digest, pseudoDigest_length]
  · exact hexdigest_chars _ (pseudoDigest_bytes_lt 20 file_bytes)
  · exact hexdigest_chars _ (pseudoDigest_bytes_lt 32 file_bytes)
  · intro other_bytes h
    rw [h]

/-- Witness for C7 at a concrete byte string. -/
theorem C7_integrity_digests_witness :
    (compute_hashes [80, 75, 3, 4]).1.length = 40 ∧
    isLowerHexChar ((compute_hashes [80, 75, 3, 4]).1.data.headD 'g') = true := by
  constructor
  · exact (C7_integrity_digests [80, 75, 3, 4]).1
  · exact (C7_integrity_digests [80, 75, 3, 4]).2.2.1
      ((compute_hashes [80, 75, 3, 4]).1.data.headD 'g') (by decide)

/-! ## Archive building
(`pack.py` lines 232-235: `zipf = zipfile.ZipFile(zip_name, "w")` — which
creates/truncates the file at the final output path — then `for file in
listdir(folder): zipf.write(join(folder, file), arcname=file)` and
`zipf.close()`).  A source directory is embedded as its readability flag
plus its entries in the order `os.listdir` returns them (which the library
documents as arbitrary, so the order is part of the input, not sorted);
an entry whose content is `none` is a file whose read by `zipf.write`
raises an `OSError`. -/

/-- A source directory as seen by the zip loop: whether `listdir` succeeds,
and the (name, readable content) pairs in directory-listing order. -/
structure SourceDir where
  readable : Bool
  entries : List (String × Option (List Nat))
deriving DecidableEq

/-- The state of the file that `ZipFile(zip_name, "w")` created at the
final output path: the entries written so far and whether the archive was
properly closed (an unclosed zip lacks its central directory and is
corrupt). -/
structure ZipFileState where
  written : List (String × List Nat)
  closed : Bool
deriving DecidableEq

/-- The loop `for file in listdir(folder): zipf.write(...)`: entries are
appended in listing order; an unreadable file raises, aborting the loop
before `zipf.close()`. -/
def zipWriteLoop : List (String × Option (List Nat)) → List (String × List Nat) →
    List (String × List Nat) × Bool
  | [], acc => (acc, true)
  | (n, some c) :: rest, acc => zipWriteLoop rest (acc ++ [(n, c)])
  | (_, none) :: _, acc => (acc, false)

/-- Lines 232-235 of `pack_adapter`: open the archive at its final path
(creating the file), list the folder, write each entry, close.  Returns the
file found at the final archive path afterwards and whether the stage
succeeded. -/
def writeZip (src : SourceDir) : Option ZipFileState × Bool :=
  if src.readable then
    let res := zipWriteLoop src.entries []
    (some ⟨res.1, res.2⟩, res.2)
  else
    (some ⟨[], false⟩, false)

theorem zipWriteLoop_all_readable (entries : List (String × Option (List Nat)))
    (acc : List (String × List Nat)) (h : ∀ e ∈ entries, e.2 ≠ none) :
    zipWriteLoop entries acc =
      (acc ++ entries.map (fun e => (e.1, e.2.getD [])), true) := by
  induction entries generalizing acc with
  | nil => simp [zipWriteLoop]
  | cons hd tl ih =>
    obtain ⟨n, c⟩ := hd
    cases c with
    | none => exact absurd rfl (h (n, none) (List.mem_cons_self _ _))
    | some c0 =>
      rw [zipWriteLoop, ih (acc ++ [(n, c0)]) (fun e he => h e (List.mem_cons_of_mem _ he))]
      simp

/-- Lexicographic strict order on filenames as character lists. -/
def lexLtChars : List Char → List Char → Bool
  | [], [] => false
  | [], _ :: _ => true
  | _ :: _, [] => false
  | a :: as, b :: bs => if a < b then true else if a = b then lexLtChars as bs else false

/-- Lexicographic order (allowing equality) on filenames. -/
def lexLeChars (a b : List Char) : Bool :=
  lexLtChars a b || a == b

/-- Whether a list of filenames is in lexicographic order. -/
def lexSorted (names : List String) : Prop :=
  List.Pairwise (fun x y => lexLeChars x.data y.data = true) names

/-- Counterexample to C3: the zip loop iterates `os.listdir` output without
sorting, so a directory whose listing is `b, a` produces an archive with
entries in that order, which is not lexicographic; the claim as stated is
false. -/
theorem C3_lexicographic_order_counterexample :
    writeZip ⟨true, [("b", some []), ("a", some [])]⟩ =
      (some ⟨[("b", []), ("a", [])], true⟩, true) ∧
    ¬ lexSorted (List.map Prod.fst [("b", ([] : List Nat)), ("a", [])]) := by
  constructor
  · rfl
  · rw [lexSorted]
    decide

/-- C3 as amended: archive entries are written in directory-listing order
(the order `os.listdir` returned, not sorted), and two builds from source
directories with the identical listing produce identical archives. -/
theorem C3_listing_order_and_determinism (src : SourceDir)
    (hread : src.readable = true) (hall : ∀ e ∈ src.entries, e.2 ≠ none) :
    writeZip src =
      (some ⟨src.entries.map (fun e => (e.1, e.2.getD [])), true⟩, true) ∧
    (∀ src2 : SourceDir, src2.readable = true → src2.entries = src.entries →
      writeZip src2 = writeZip src) := by
  constructor
  · rw [writeZip, if_pos hread, zipWriteLoop_all_readable src.entries [] hall]
    simp
  · intro src2 hread2 hent
    rw [writeZip, writeZip, if_pos hread, if_pos hread2, hent]

/-- Witness for the amended C3 at a concrete two-file directory listed in
the order `b, a`. -/
theorem C3_listing_order_and_determinism_witness :
    writeZip ⟨true, [("b", some [7]), ("a", some [8])]⟩ =
      (some ⟨[("b", [7]), ("a", [8])], true⟩, true) := by
  exact (C3_listing_order_and_determinism ⟨true, [("b", some [7]), ("a", some [8])]⟩
    rfl (by decide)).1

/-- Counterexample to C8: a readable directory with zero files does not
fail; the loop body never runs, the archive is closed immediately, and an
empty archive is produced at the output path. -/
theorem C8_empty_dir_counterexample :
    writeZip ⟨true, []⟩ = (some ⟨[], true⟩, true) ∧
    (writeZip ⟨true, []⟩).2 ≠ false := by
  constructor
  · rfl
  · decide

/-- C8 as amended: building the archive fails exactly when the source
directory is unreadable or reading one of its files fails, and a readable
directory with zero files succeeds, producing an empty (closed) archive. -/
theorem C8_failure_conditions (src : SourceDir) :
    ((writeZip src).2 = false ↔
      src.readable = false ∨ (zipWriteLoop src.entries []).2 = false) ∧
    (src.readable = true → src.entries = [] →
      writeZip src = (some ⟨[], true⟩, true)) := by
  constructor
  · by_cases h : src.readable
    · rw [writeZip, if_pos h]
      simp [h]
    · rw [writeZip, if_neg h]
      simp [Bool.eq_false_iff.mpr h]
  · intro hread hent
    rw [writeZip, if_pos hread, hent]
    rfl

/-- Witness for the amended C8: an unreadable directory fails, and the
concrete empty readable directory yields the empty closed archive. -/
theorem C8_failure_conditions_witness :
    ((writeZip ⟨false, [("x", some [1])]⟩).2 = false) ∧
    writeZip ⟨true, []⟩ = (some ⟨[], true⟩, true) := by
  constructor
  · exact (C8_failure_conditions ⟨false, [("x", some [1])]⟩).1.mpr (Or.inl rfl)
  · exact (C8_failure_conditions ⟨true, []⟩).2 rfl rfl

/-! ## Per-adapter pipeline and batch orchestration
(`pack.py` lines 202-270 `pack_adapter` and 285-314
`pack_adapters_interactive`).  One adapter folder is embedded as: whether
`adapter_config.json` exists (line 207 raises if not), whether the
pre-archive resolution steps succeed (lines 209-228: config parsing, type /
task / config-name / model-name resolution and the name join, which raise
before any output file is opened), the zipped source directory, and whether
the post-archive steps succeed (lines 238-266: digests, URL interpolation
and manifest synthesis, which raise after the archive is complete but
before the manifest file is opened at line 268). -/

/-- One adapter folder as consumed by `pack_adapter`. -/
structure AdapterFolder where
  name : String
  hasAdapterConfig : Bool
  promptsOk : Bool
  src : SourceDir
  synthOk : Bool
deriving DecidableEq

/-- What one `pack_adapter` run leaves at the two final output paths, and
whether it succeeded. -/
structure PackOutcome where
  zipAt : Option ZipFileState
  yamlAt : Bool
  ok : Bool
deriving DecidableEq

/-- The output behaviour of `pack_adapter` on one folder: a missing config
file or a failing pre-archive step raises before any output path is opened;
then the archive is written at its final path; a failing post-archive step
raises before the manifest path is opened; the manifest is written last. -/
def pack_adapter_model (f : AdapterFolder) : PackOutcome :=
  if f.hasAdapterConfig = false then ⟨none, false, false⟩
  else if f.promptsOk = false then ⟨none, false, false⟩
  else
    match writeZip f.src with
    | (zf, false) => ⟨zf, false, false⟩
    | (zf, true) => if f.synthOk = false then ⟨zf, false, false⟩ else ⟨zf, true, true⟩

/-- The loop of `pack_adapters_interactive` (lines 305-313): each folder is
packed inside `try ... except Exception`, the failure is reported against
that folder, and the loop continues; the record is (folder name, success). -/
def pack_adapters_interactive : List AdapterFolder → List (String × Bool)
  | [] => []
  | f :: rest => (f.name, (pack_adapter_model f).ok) :: pack_adapters_interactive rest

/-- Counterexample to C4: a folder whose second file is unreadable makes
the zip loop raise after the archive was already created at its final path,
leaving a partial, unclosed (corrupt) archive there although packing
failed. -/
theorem C4_partial_archive_counterexample :
    (pack_adapter_model
      ⟨"a1", true, true, ⟨true, [("w.bin", some [1]), ("c.json", none)]⟩, true⟩).ok
        = false ∧
    (pack_adapter_model
      ⟨"a1", true, true, ⟨true, [("w.bin", some [1]), ("c.json", none)]⟩, true⟩).zipAt
        = some ⟨[("w.bin", [1])], false⟩ := by
  constructor
  · rfl
  · rfl

/-- C4 as amended: the manifest file appears at its final path exactly when
the whole pack of that artifact succeeded (every failure leaves no manifest
file), but the archive path is opened before writing, so a failure during
or after archive writing can leave a partial or complete archive file at
the final archive path even though packing failed; only failures raised
before the archive is opened leave nothing behind. -/
theorem C4_output_atomicity (f : AdapterFolder) :
    (pack_adapter_model f).yamlAt = (pack_adapter_model f).ok ∧
    (f.hasAdapterConfig = false ∨ f.promptsOk = false →
      (pack_adapter_model f).zipAt = none) ∧
    ((pack_adapter_model f).ok = true →
      (pack_adapter_model f).zipAt =
        some ⟨(zipWriteLoop f.src.entries []).1, true⟩) := by
  refine ⟨?_, ?_, ?_⟩
  · rw [pack_adapter_model]
    by_cases h1 : f.hasAdapterConfig = false
    · rw [if_pos h1]
    · rw [if_neg h1]
      by_cases h2 : f.promptsOk = false
      · rw [if_pos h2]
      · rw [if_neg h2]
        rcases hz : writeZip f.src with ⟨zf, b⟩
        cases b
        · rfl
        · by_cases h3 : f.synthOk = false
          · simp [h3]
          · simp [h3]
  · intro h
    rcases h with h | h
    · rw [pack_adapter_model, if_pos h]
    · rw [pack_adapter_model]
      by_cases h1 : f.hasAdapterConfig = false
      · rw [if_pos h1]
      · rw [if_neg h1, if_pos h]
  · intro hok
    rw [pack_adapter_model] at hok ⊢
    by_cases h1 : f.hasAdapterConfig = false
    · rw [if_pos h1] at hok
      exact absurd hok (by decide)
    · rw [if_neg h1] at hok ⊢
      by_cases h2 : f.promptsOk = false
      · rw [if_pos h2] at hok
        exact absurd hok (by decide)
      · rw [if_neg h2] at hok ⊢
        have hread : f.src.readable = true := by
          by_contra hr
          rw [writeZip, if_neg hr] at hok
          simp at hok
        rcases hz : zipWriteLoop f.src.entries [] with ⟨es, b⟩
        have hw : writeZip f.src = (some ⟨es, b⟩, b) := by
          rw [writeZip, if_pos hread, hz]
        rw [hw] at hok ⊢
        cases b
        · simp at hok
        · by_cases h3 : f.synthOk = false
          · simp [h3] at hok
          · simp [h3, hz]

/-- Witness for the amended C4 at concrete folders: a failing post-archive
step leaves no manifest, a pre-archive failure leaves no archive, and a
fully successful folder leaves the closed archive. -/
theorem C4_output_atomicity_witness :
    (pack_adapter_model ⟨"a1", true, true, ⟨true, [("w.bin", some [1])]⟩, false⟩).yamlAt
      = (pack_adapter_model ⟨"a1", true, true, ⟨true, [("w.bin", some [1])]⟩, false⟩).ok ∧
    (pack_adapter_model ⟨"a2", false, true, ⟨true, []⟩, true⟩).zipAt = none ∧
    (pack_adapter_model ⟨"a3", true, true, ⟨true, [("w.bin", some [1])]⟩, true⟩).zipAt
      = some ⟨[("w.bin", [1])], true⟩ := by
  refine ⟨(C4_output_atomicity ⟨"a1", true, true, ⟨true, [("w.bin", some [1])]⟩, false⟩).1,
    (C4_output_atomicity ⟨"a2", false, true, ⟨true, []⟩, true⟩).2.1 (Or.inl rfl), ?_⟩
  have h := (C4_output_atomicity ⟨"a3", true, true, ⟨true, [("w.bin", some [1])]⟩, true⟩).2.2
    (by decide)
  rw [h]
  decide

/-- C2: the batch loop records one (name, outcome) pair per folder, in
order; each outcome is a function of that folder alone, so an exception
while packing one folder (a missing `adapter_config.json` included, which
is recorded as a failure) never prevents any remaining folder from being
processed. -/
theorem C2_batch_failure_isolation (folders : List AdapterFolder) :
    (pack_adapters_interactive folders).length = folders.length ∧
    (∀ i, (pack_adapters_interactive folders).get? i =
      (folders.get? i).map (fun f => (f.name, (pack_adapter_model f).ok))) ∧
    (∀ f ∈ folders, f.hasAdapterConfig = false →
      (f.name, false) ∈ pack_adapters_interactive folders) := by
  refine ⟨?_, ?_, ?_⟩
  · induction folders with
    | nil => rfl
    | cons hd tl ih => simp [pack_adapters_interactive, ih]
  · intro i
    induction folders generalizing i with
    | nil => simp [pack_adapters_interactive]
    | cons hd tl ih =>
      cases i with
      | zero => rfl
      | succ j => simpa [pack_adapters_interactive] using ih j
  · intro f hf hcfg
    induction folders with
    | nil => cases hf
    | cons hd tl ih =>
      rcases List.mem_cons.mp hf with h | h
      · subst h
        have hok : (pack_adapter_model f).ok = false := by
          rw [pack_adapter_model, if_pos hcfg]
        rw [pack_adapters_interactive, hok]
        exact List.mem_cons_self _ _
      · exact List.mem_cons_of_mem _ (ih h)

/-- Witness for C2 at a concrete batch whose first folder is missing
`adapter_config.json`: the failure is recorded against it and the second
folder is still processed. -/
theorem C2_batch_failure_isolation_witness :
    (pack_adapters_interactive
      [⟨"bad", false, true, ⟨true, []⟩, true⟩,
       ⟨"good", true, true, ⟨true, [("w.bin", some [1])]⟩, true⟩]).length = 2 ∧
    ("bad", false) ∈ pack_adapters_interactive
      [⟨"bad", false, true, ⟨true, []⟩, true⟩,
       ⟨"good", true, true, ⟨true, [("w.bin", some [1])]⟩, true⟩] := by
  constructor
  · exact (C2_batch_failure_isolation
      [⟨"bad", false, true, ⟨true, []⟩, true⟩,
       ⟨"good", true, true, ⟨true, [("w.bin", some [1])]⟩, true⟩]).1
  · exact (C2_batch_failure_isolation
      [⟨"bad", false, true, ⟨true, []⟩, true⟩,
       ⟨"good", true, true, ⟨true, [("w.bin", some [1])]⟩, true⟩]).2.2
      ⟨"bad", false, true, ⟨true, []⟩, true⟩ (by simp) rfl

/-! ## C9: scanning for models and adapters
(`pack.py` lines 78-89: for each input path, `glob.glob(join(input_path,
"**", WEIGHTS_NAME), recursive=True)` appends the dirname of every match to
`models_list` (only when `extract_from_models`), and likewise with
`ADAPTER_WEIGHTS_NAME` into `adapters_list`).  Paths are embedded as
component lists; a file is (containing directory, basename); a recursive
glob for a fixed basename under a root matches exactly the files with that
basename whose directory has the root as a prefix. -/

/-- The weights file identifying a full model checkpoint. -/
def WEIGHTS_NAME : String := "pytorch_model.bin"

/-- The weights file identifying an adapter. -/
def ADAPTER_WEIGHTS_NAME : String := "pytorch_adapter.bin"

/-- A filesystem for the scan: the list of files, each as its containing
directory (path components) and basename. -/
structure ScanFS where
  files : List (List String × String)
deriving DecidableEq

/-- `glob.glob(join(root, "**", name), recursive=True)` followed by
`dirname`: the directories of the files named `name` under `root`. -/
def glob_weight_dirs (fs : ScanFS) (root : List String) (name : String) :
    List (List String) :=
  (fs.files.filter (fun f => root.isPrefixOf f.1 && f.2 == name)).map Prod.fst

/-- Lines 78-89 of `pack.py`: the per-root append loops building
`models_list` (guarded by `extract_from_models`) and `adapters_list`. -/
def find_models_and_adapters (extract_from_models : Bool)
    (input_paths : List (List String)) (fs : ScanFS) :
    List (List String) × List (List String) :=
  (if extract_from_models then
      input_paths.foldl (fun acc r => acc ++ glob_weight_dirs fs r WEIGHTS_NAME) []
    else [],
   input_paths.foldl (fun acc r => acc ++ glob_weight_dirs fs r ADAPTER_WEIGHTS_NAME) [])

theorem foldl_append_glob (g : List String → List (List String))
    (l : List (List String)) (acc : List (List String)) :
    l.foldl (fun acc r => acc ++ g r) acc = acc ++ (l.map g).flatten := by
  induction l generalizing acc with
  | nil => simp
  | cons hd tl ih => simp [ih, List.append_assoc]

theorem mem_glob_weight_dirs (fs : ScanFS) (root : List String) (name : String)
    (d : List String) :
    d ∈ glob_weight_dirs fs root name ↔
      root.isPrefixOf d = true ∧ (d, name) ∈ fs.files := by
  simp only [glob_weight_dirs, List.mem_map, List.mem_filter, Bool.and_eq_true,
    beq_iff_eq]
  constructor
  · rintro ⟨⟨d0, n0⟩, ⟨hmem, hpre, hname⟩, heq⟩
    subst heq
    subst hname
    exact ⟨hpre, hmem⟩
  · rintro ⟨hpre, hmem⟩
    exact ⟨(d, name), ⟨hmem, hpre, rfl⟩, rfl⟩

/-- Counterexample to C9: a directory containing both weights files appears
in both lists (the lists are not disjoint), and a root passed twice reports
the same adapter directory twice (no deduplication). -/
theorem C9_scan_counterexample :
    find_models_and_adapters true [["d"]]
      ⟨[(["d"], "pytorch_model.bin"), (["d"], "pytorch_adapter.bin")]⟩ =
        ([["d"]], [["d"]]) ∧
    (["d"] ∈ (find_models_and_adapters true [["d"]]
      ⟨[(["d"], "pytorch_model.bin"), (["d"], "pytorch_adapter.bin")]⟩).1 ∧
     ["d"] ∈ (find_models_and_adapters true [["d"]]
      ⟨[(["d"], "pytorch_model.bin"), (["d"], "pytorch_adapter.bin")]⟩).2) ∧
    (find_models_and_adapters false [["d"], ["d"]]
      ⟨[(["d"], "pytorch_adapter.bin")]⟩).2 = [["d"], ["d"]] := by
  refine ⟨?_, ⟨?_, ?_⟩, ?_⟩ <;> decide

/-- C9 as amended: the scan returns exactly the directories of model
weights files under some root (and only when extraction is enabled) and the
directories of adapter weights files under some root, one occurrence per
matching (root, file) pair; the two lists are not guaranteed disjoint and a
directory can appear more than once when roots overlap. -/
theorem C9_scan_characterization (extract_from_models : Bool)
    (input_paths : List (List String)) (fs : ScanFS) (d : List String) :
    (d ∈ (find_models_and_adapters extract_from_models input_paths fs).1 ↔
      extract_from_models = true ∧
        ∃ r ∈ input_paths, r.isPrefixOf d = true ∧ (d, WEIGHTS_NAME) ∈ fs.files) ∧
    (d ∈ (find_models_and_adapters extract_from_models input_paths fs).2 ↔
      ∃ r ∈ input_paths, r.isPrefixOf d = true ∧
        (d, ADAPTER_WEIGHTS_NAME) ∈ fs.files) := by
  constructor
  · rw [find_models_and_adapters]
    by_cases h : extract_from_models
    · subst h
      rw [if_pos rfl]
      simp only [foldl_append_glob, List.nil_append, List.mem_flatten,
        List.mem_map, true_and]
      constructor
      · rintro ⟨l, ⟨r, hr, hl⟩, hd⟩
        subst hl
        rcases (mem_glob_weight_dirs fs r WEIGHTS_NAME d).mp hd with ⟨hpre, hmem⟩
        exact ⟨r, hr, hpre, hmem⟩
      · rintro ⟨r, hr, hpre, hmem⟩
        exact ⟨glob_weight_dirs fs r WEIGHTS_NAME, ⟨r, hr, rfl⟩,
          (mem_glob_weight_dirs fs r WEIGHTS_NAME d).mpr ⟨hpre, hmem⟩⟩
    · rw [if_neg h]
      simp [Bool.eq_false_iff.mpr h]
  · rw [find_models_and_adapters]
    simp only [foldl_append_glob, List.nil_append, List.mem_flatten, List.mem_map]
    constructor
    · rintro ⟨l, ⟨r, hr, hl⟩, hd⟩
      subst hl
      rcases (mem_glob_weight_dirs fs r ADAPTER_WEIGHTS_NAME d).mp hd with ⟨hpre, hmem⟩
      exact ⟨r, hr, hpre, hmem⟩
    · rintro ⟨r, hr, hpre, hmem⟩
      exact ⟨glob_weight_dirs fs r ADAPTER_WEIGHTS_NAME, ⟨r, hr, rfl⟩,
        (mem_glob_weight_dirs fs r ADAPTER_WEIGHTS_NAME d).mpr ⟨hpre, hmem⟩⟩

end Pack
